import Mathlib

/-!
Verification of the xseon-real record-management service.

The development shallowly embeds `src/app/storage.py` (the `LocalCsvBackend`
and the row-level parts of `GoogleSheetsBackend`) and the domain operations of
`src/app/main.py` over it.

Modelling conventions:
* Python `str` is Lean `String`; `str.split`, `str.join` and `str.strip` are
  modelled at the character-list level (`pySplitOn`, `pyJoin`, `trimChars`),
  which matches Python's semantics for one-character separators.
* `datetime` values are abstracted to `Nat` tick counts.  `isoformat` is an
  injective encoding that never produces the empty string, so a CSV cell that
  holds either an isoformat timestamp or the empty string is modelled as
  `Option Nat` (`none` for the empty cell).  Parsing is then exact, which is
  faithful on every state the backend itself writes.
* A CSV table is a list of row records whose fields are the raw cell strings
  (`ObjectRow`, `PlaceRow`); `TagItem`, `LogItem` and `AuditLogItem` rows carry
  no encoded fields, so the row and the parsed record coincide.
* Python `random.randint(10000, 99999)` draws are supplied as an explicit
  stream `draws : Nat → Nat`; `datetime.utcnow()` is an explicit `now : Nat`.
* Iteration order of a Python `set` is unspecified; `list(new_tags_set)` is
  modelled by `List.dedup` of the submitted list (first-occurrence order), and
  `sorted(...)` by insertion sort on the lexicographic string order.
-/

/-- Python `str.strip()`: drop whitespace from both ends. -/
def trimChars (s : String) : String :=
  ⟨((s.data.dropWhile Char.isWhitespace).reverse.dropWhile Char.isWhitespace).reverse⟩

/-- Python `s.split(sep)` for a one-character separator. -/
def pySplitOn (sep : Char) (s : String) : List String :=
  (s.data.splitOn sep).map (fun cs => ⟨cs⟩)

/-- Python `sep.join(xs)`. -/
def pyJoin (sep : String) (xs : List String) : String :=
  ⟨List.intercalate sep.data (xs.map String.data)⟩

/-- `[i for i in s.split("|") if i]` — the multi-valued field decoder
used by `list_objects` / `list_places`. -/
def splitPipe (s : String) : List String :=
  (pySplitOn '|' s).filter (fun t => ¬ t = "")

/-- `"|".join(xs)` — the multi-valued field encoder used by `save_object` /
`save_place`. -/
def joinPipe (xs : List String) : String :=
  pyJoin "|" xs

/-- `[t.strip() for t in xs if t.strip()]`. -/
def cleanList (xs : List String) : List String :=
  (xs.map trimChars).filter (fun t => ¬ t = "")

/-- `[i.strip() for i in images.split(",") if i.strip()]`. -/
def splitCommaClean (s : String) : List String :=
  cleanList (pySplitOn ',' s)

/-- `",".join(xs)`. -/
def joinComma (xs : List String) : String :=
  pyJoin "," xs

/-- Lexicographic `≤` on character lists — Python's string comparison. -/
def lexLeChars : List Char → List Char → Bool
  | [], _ => true
  | _ :: _, [] => false
  | a :: as, b :: bs => if a = b then lexLeChars as bs else decide (a < b)

/-- Python `a <= b` on strings. -/
def strLeB (a b : String) : Bool :=
  lexLeChars a.data b.data

/-- Insert into a `strLeB`-sorted list. -/
def insertStr (a : String) : List String → List String
  | [] => [a]
  | b :: bs => if strLeB a b then a :: b :: bs else b :: insertStr a bs

/-- Python `sorted` on strings (stable insertion sort over the total
lexicographic order). -/
def sortStr : List String → List String
  | [] => []
  | a :: as => insertStr a (sortStr as)

/-- Insert into a descending-sorted list of naturals. -/
def insertNatGe (a : Nat) : List Nat → List Nat
  | [] => [a]
  | b :: bs => if b ≤ a then a :: b :: bs else b :: insertNatGe a bs

/-- Python `sorted(idxs, reverse=True)` on naturals (descending sort). -/
def sortDescNat : List Nat → List Nat
  | [] => []
  | a :: as => insertNatGe a (sortDescNat as)

/-! ### Entity model (`storage.py` dataclasses) -/

/-- `ObjectItem` dataclass. -/
structure ObjectItem where
  id : String
  name : String
  description : String := ""
  images : List String := []
  images_photo : List String := []
  tags : List String := []
  place_id : String := ""
  put_at : Option Nat := none
deriving DecidableEq

/-- `PlaceItem` dataclass. -/
structure PlaceItem where
  id : String
  name : String
  description : String := ""
  images : List String := []
  images_photo : List String := []
  tags : List String := []
  put_at : Option Nat := none
deriving DecidableEq

/-- `TagItem` dataclass.  Its CSV row has no encoded fields, so the same
structure serves as the row type. -/
structure TagItem where
  id : String
  name : String
deriving DecidableEq

/-- `LogItem` dataclass / `logs.csv` row (timestamp cell always present). -/
structure LogItem where
  timestamp : Nat
  object_id : String
  place_id : String
  notes : String := ""
deriving DecidableEq

/-- `AuditLogItem` dataclass / `audit.csv` row. -/
structure AuditLogItem where
  timestamp : Nat
  entity_type : String
  entity_id : String
  action : String
  details : String := ""
deriving DecidableEq

/-! ### CSV rows -/

/-- One row of `objects.csv` (raw cell strings; `put_at` cell is either an
isoformat timestamp or empty, modelled as `Option Nat`). -/
structure ObjectRow where
  id : String
  name : String
  description : String
  images : String
  images_photo : String
  tags : String
  place_id : String
  put_at : Option Nat
deriving DecidableEq

/-- One row of `places.csv`. -/
structure PlaceRow where
  id : String
  name : String
  description : String
  images : String
  images_photo : String
  tags : String
  put_at : Option Nat
deriving DecidableEq

/-- The row dict written by `LocalCsvBackend.save_object` (and the value row
written by `GoogleSheetsBackend.save_object`). -/
def serObject (item : ObjectItem) : ObjectRow :=
  { id := item.id
    name := item.name
    description := item.description
    images := joinPipe item.images
    images_photo := joinPipe item.images_photo
    tags := joinPipe item.tags
    place_id := item.place_id
    put_at := item.put_at }

/-- Row decoding performed by `LocalCsvBackend.list_objects`. -/
def parseObjectRow (r : ObjectRow) : ObjectItem :=
  { id := r.id
    name := r.name
    description := r.description
    images := splitPipe r.images
    images_photo := splitPipe r.images_photo
    tags := splitPipe r.tags
    place_id := r.place_id
    put_at := r.put_at }

/-- The row dict written by `LocalCsvBackend.save_place`. -/
def serPlace (item : PlaceItem) : PlaceRow :=
  { id := item.id
    name := item.name
    description := item.description
    images := joinPipe item.images
    images_photo := joinPipe item.images_photo
    tags := joinPipe item.tags
    put_at := item.put_at }

/-- Row decoding performed by `LocalCsvBackend.list_places`. -/
def parsePlaceRow (r : PlaceRow) : PlaceItem :=
  { id := r.id
    name := r.name
    description := r.description
    images := splitPipe r.images
    images_photo := splitPipe r.images_photo
    tags := splitPipe r.tags
    put_at := r.put_at }

/-! ### The `LocalCsvBackend` state and operations -/

/-- The five CSV tables managed by `LocalCsvBackend`. -/
structure CsvState where
  objects : List ObjectRow
  places : List PlaceRow
  tags : List TagItem
  logs : List LogItem
  audit : List AuditLogItem
deriving DecidableEq

/-- `list_objects`. -/
def listObjects (st : CsvState) : List ObjectItem :=
  st.objects.map parseObjectRow

/-- `get_object`: first match of a linear scan. -/
def getObject (st : CsvState) (object_id : String) : Option ObjectItem :=
  (listObjects st).find? (fun it => it.id == object_id)

/-- The row mutation of `save_object`: replace the first row with a matching
id (the loop `break`s after the first hit), else append. -/
def upsertObjectRow (rows : List ObjectRow) (item : ObjectItem) : List ObjectRow :=
  match rows with
  | [] => [serObject item]
  | r :: rest =>
    if r.id = item.id then serObject item :: rest
    else r :: upsertObjectRow rest item

/-- `save_object` on the CSV state. -/
def saveObject (st : CsvState) (item : ObjectItem) : CsvState :=
  { st with objects := upsertObjectRow st.objects item }

/-- `list_places`. -/
def listPlaces (st : CsvState) : List PlaceItem :=
  st.places.map parsePlaceRow

/-- `get_place`. -/
def getPlace (st : CsvState) (place_id : String) : Option PlaceItem :=
  (listPlaces st).find? (fun it => it.id == place_id)

/-- The row mutation of `save_place`. -/
def upsertPlaceRow (rows : List PlaceRow) (item : PlaceItem) : List PlaceRow :=
  match rows with
  | [] => [serPlace item]
  | r :: rest =>
    if r.id = item.id then serPlace item :: rest
    else r :: upsertPlaceRow rest item

/-- `save_place` on the CSV state. -/
def savePlace (st : CsvState) (item : PlaceItem) : CsvState :=
  { st with places := upsertPlaceRow st.places item }

/-- `LocalCsvBackend.delete_place`: keep the rows whose id differs. -/
def deletePlaceRow (st : CsvState) (place_id : String) : CsvState :=
  { st with places := st.places.filter (fun r => ¬ r.id = place_id) }

/-- `list_tags`. -/
def listTags (st : CsvState) : List TagItem :=
  st.tags

/-- `get_tag`. -/
def getTag (st : CsvState) (tag_id : String) : Option TagItem :=
  (listTags st).find? (fun t => t.id == tag_id)

/-- The row mutation of `save_tag`. -/
def upsertTagRow (rows : List TagItem) (item : TagItem) : List TagItem :=
  match rows with
  | [] => [item]
  | r :: rest =>
    if r.id = item.id then item :: rest
    else r :: upsertTagRow rest item

/-- `save_tag` on the CSV state. -/
def saveTag (st : CsvState) (item : TagItem) : CsvState :=
  { st with tags := upsertTagRow st.tags item }

/-- `LocalCsvBackend.delete_tag`. -/
def deleteTagRow (st : CsvState) (tag_id : String) : CsvState :=
  { st with tags := st.tags.filter (fun t => ¬ t.id = tag_id) }

/-- `add_log`: append-only insert. -/
def addLog (st : CsvState) (item : LogItem) : CsvState :=
  { st with logs := st.logs ++ [item] }

/-- `add_audit`: append-only insert. -/
def addAudit (st : CsvState) (item : AuditLogItem) : CsvState :=
  { st with audit := st.audit ++ [item] }

/-- `LocalCsvBackend.delete_objects_by_place`: keep the non-matching rows and
return the new state together with `len(orig_rows) - len(remaining)`. -/
def deleteObjectsByPlace (st : CsvState) (place_id : String) : CsvState × Nat :=
  let remaining := st.objects.filter (fun r => ¬ r.place_id = place_id)
  ({ st with objects := remaining }, st.objects.length - remaining.length)

/-! ### `GoogleSheetsBackend` row-level operations

A worksheet is modelled as its list of data rows (the header row excluded);
sheet row index `i` (gspread counts from 1, data rows start at 2) addresses
list position `i - 2`. -/

/-- The scan of `GoogleSheetsBackend.save_object`
(`for idx, r in enumerate(rows, start=2): if ...: found_row_index = idx; break`),
returned as the zero-based data position (sheet index minus 2). -/
def rowIdxOf (item_id : String) : List ObjectRow → Option Nat
  | [] => none
  | r :: rest =>
    if r.id = item_id then some 0 else (rowIdxOf item_id rest).map (· + 1)

/-- `GoogleSheetsBackend.save_object`: scan for the first row whose id
matches, then either a single-row update in place (`update(f"A{found}")`,
which rewrites data position `found - 2`) or an `append_row`. -/
def sheetsSaveObject (rows : List ObjectRow) (item : ObjectItem) : List ObjectRow :=
  match rowIdxOf item.id rows with
  | some i => rows.set i (serObject item)
  | none => rows ++ [serObject item]

/-- The index collection loop of `delete_objects_by_place`:
`for idx, r in enumerate(rows, start=2): if r["place_id"] == place_id: idxs.append(idx)`;
`k` is the sheet index of the first row of `rows`. -/
def matchIdxs (place_id : String) : Nat → List ObjectRow → List Nat
  | _, [] => []
  | k, r :: rest =>
    (if r.place_id = place_id then [k] else []) ++ matchIdxs place_id (k + 1) rest

/-- `ws.delete_rows(i)` for a sheet row index `i` (data rows start at sheet
index 2). -/
def eraseSheetRow (rows : List ObjectRow) (i : Nat) : List ObjectRow :=
  rows.eraseIdx (i - 2)

/-- `GoogleSheetsBackend.delete_objects_by_place`: collect matching sheet
indices, delete them in descending order, return the count. -/
def sheetsDeleteObjectsByPlace (rows : List ObjectRow) (place_id : String) :
    List ObjectRow × Nat :=
  let idxs := matchIdxs place_id 2 rows
  ((sortDescNat idxs).foldl eraseSheetRow rows, idxs.length)

/-- Modelled from the spec: the rejected alternative it warns against in
§4.4 — deleting the collected indices in ascending order instead of
descending (`ascending order would invalidate subsequent indices after each
deletion`).  Not present in the source; used only to show the ordering is a
correctness requirement. -/
def sheetsDeleteAscending (rows : List ObjectRow) (place_id : String) : List ObjectRow :=
  (matchIdxs place_id 2 rows).foldl eraseSheetRow rows

/-! ### Domain operations (`main.py`) -/

/-- The unique-id generation loop shared by `create_object`, `create_place`
and `create_tag`:
`new_id = str(random.randint(10000, 99999))` followed by
`while <id taken>: new_id = str(random.randint(10000, 99999))`.
`draws` is the stream of `randint` results; the loop returns the first draw
whose decimal string is not an existing id, so it is modelled by `Nat.find`
on the (decidable) freshness predicate, given that some draw is fresh. -/
def freshDigitId (draws : Nat → Nat) (existing : List String)
    (h : ∃ k, ¬ toString (draws k) ∈ existing) : String :=
  toString (draws (Nat.find h))

/-- `POST /objects` (`create_object`): generate a fresh id, build the item
(`put_at = now` iff a place is given), save it, and append an auto-log when a
place is given.  `newPhotos` stands for the urls returned by
`_save_uploaded_photos`.  Returns the new state and the generated id. -/
def createObject (st : CsvState) (draws : Nat → Nat)
    (h : ∃ k, ¬ toString (draws k) ∈ (listObjects st).map ObjectItem.id)
    (name description images : String) (place_id : Option String)
    (newPhotos : List String) (tags : Option (List String)) (now : Nat) :
    CsvState × String :=
  let new_id := freshDigitId draws ((listObjects st).map ObjectItem.id) h
  let put_dt : Option Nat := if ¬ place_id.getD "" = "" then some now else none
  let item : ObjectItem :=
    { id := new_id
      name := name
      description := description
      images := splitCommaClean images
      images_photo := newPhotos
      tags := cleanList (tags.getD [])
      place_id := place_id.getD ""
      put_at := put_dt }
  let st1 := saveObject st item
  let st2 :=
    if ¬ item.place_id = "" then
      addLog st1 { timestamp := put_dt.getD now, object_id := new_id,
                   place_id := item.place_id, notes := "auto: created object" }
    else st1
  (st2, new_id)

/-- `added_tags = sorted(new_tags_set - prev_tags)` in `update_object`
(`new_tags_set = set(t.strip() for t in (tags or []) if t.strip())`,
`prev_tags = set(prev.tags or [])`). -/
def addedTags (prev_tags : List String) (tags : Option (List String)) : List String :=
  sortStr (((cleanList (tags.getD [])).filter (fun t => ¬ t ∈ prev_tags)).dedup)

/-- `removed_tags = sorted(prev_tags - new_tags_set)` in `update_object`. -/
def removedTags (prev_tags : List String) (tags : Option (List String)) : List String :=
  sortStr ((prev_tags.filter (fun t => ¬ t ∈ cleanList (tags.getD []))).dedup)

/-- The `notes` string of the tag-diff auto-log:
`"auto: tags " + " ".join(note_parts)` where `note_parts` holds
`"+" + ",".join(added_tags)` and/or `"-" + ",".join(removed_tags)`. -/
def tagDiffNotes (prev_tags : List String) (tags : Option (List String)) : String :=
  "auto: tags " ++ pyJoin " "
    ((if ¬ addedTags prev_tags tags = []
        then ["+" ++ joinComma (addedTags prev_tags tags)] else []) ++
     (if ¬ removedTags prev_tags tags = []
        then ["-" ++ joinComma (removedTags prev_tags tags)] else []))

/-- `POST /objects/{object_id}` (`update_object`).  `newPhotos` stands for
the urls returned by `_save_uploaded_photos`; `remove_photo = None` is
modelled as the empty list. -/
def updateObject (st : CsvState) (object_id name description images : String)
    (place_id : Option String) (newPhotos : List String)
    (remove_photo : List Nat) (tags : Option (List String)) (now : Nat) :
    CsvState :=
  let prev : ObjectItem :=
    match getObject st object_id with
    | some p => p
    | none => { id := object_id, name := name }
  let photos0 := prev.images_photo ++ newPhotos
  let photos :=
    if ¬ remove_photo = [] then
      ((photos0.enum.filter (fun x => ¬ x.1 ∈ remove_photo)).map Prod.snd)
    else photos0
  let new_place := place_id.getD ""
  let put_dt : Option Nat :=
    if ¬ new_place = "" ∧ ¬ new_place = prev.place_id then some now else prev.put_at
  let new_tags_list := cleanList (tags.getD [])
  let item : ObjectItem :=
    { id := object_id
      name := name
      description := description
      images := splitCommaClean images
      images_photo := photos
      tags := new_tags_list.dedup
      place_id := new_place
      put_at := put_dt }
  let st1 := saveObject st item
  let st2 :=
    if ¬ new_place = "" ∧ ¬ new_place = prev.place_id then
      addLog st1 { timestamp := put_dt.getD now, object_id := object_id,
                   place_id := new_place, notes := "auto: moved object" }
    else st1
  if ¬ addedTags prev.tags tags = [] ∨ ¬ removedTags prev.tags tags = [] then
    addLog st2 { timestamp := now, object_id := object_id,
                 place_id := if ¬ new_place = "" then new_place else prev.place_id,
                 notes := tagDiffNotes prev.tags tags }
  else st2

/-- `POST /places` (`create_place`). -/
def createPlace (st : CsvState) (draws : Nat → Nat)
    (h : ∃ k, ¬ toString (draws k) ∈ (listPlaces st).map PlaceItem.id)
    (name description images : String) (newPhotos : List String)
    (tags : Option (List String)) (now : Nat) : CsvState × String :=
  let new_id := freshDigitId draws ((listPlaces st).map PlaceItem.id) h
  let item : PlaceItem :=
    { id := new_id
      name := name
      description := description
      images := splitCommaClean images
      images_photo := newPhotos
      tags := cleanList (tags.getD [])
      put_at := none }
  let st1 := savePlace st item
  let st2 := addAudit st1 { timestamp := now, entity_type := "place",
                            entity_id := new_id, action := "created", details := name }
  (st2, new_id)

/-- `POST /places/{place_id}` (`update_place`). -/
def updatePlace (st : CsvState) (place_id name description images : String)
    (newPhotos : List String) (remove_photo : List Nat)
    (tags : Option (List String)) (now : Nat) : CsvState :=
  let prev := getPlace st place_id
  let photos0 := (match prev with | some p => p.images_photo | none => []) ++ newPhotos
  let photos :=
    if ¬ remove_photo = [] then
      ((photos0.enum.filter (fun x => ¬ x.1 ∈ remove_photo)).map Prod.snd)
    else photos0
  let item : PlaceItem :=
    { id := place_id
      name := name
      description := description
      images := splitCommaClean images
      images_photo := photos
      tags := cleanList (tags.getD [])
      put_at := match prev with | some p => p.put_at | none => none }
  let st1 := savePlace st item
  addAudit st1 { timestamp := now, entity_type := "place", entity_id := place_id,
                 action := "updated", details := name }

/-- Failure modes of the guarded delete endpoints: HTTP 404, or the conflict
re-render (`"Place has objects"` / `"Tag is in use"`) that leaves the state
untouched. -/
inductive DeleteOutcome where
  | notFound : DeleteOutcome
  | conflict : DeleteOutcome
deriving DecidableEq

/-- `POST /places/{place_id}/delete` (`delete_place` endpoint): 404 when the
place is absent, conflict (state unchanged) when an object references it,
otherwise delete the row and append one audit entry. -/
def deletePlaceOp (st : CsvState) (place_id : String) (now : Nat) :
    Except DeleteOutcome CsvState :=
  match getPlace st place_id with
  | none => .error .notFound
  | some item =>
    let objects_here := (listObjects st).filter (fun o => o.place_id == place_id)
    if ¬ objects_here = [] then .error .conflict
    else
      let st1 := deletePlaceRow st place_id
      .ok (addAudit st1 { timestamp := now, entity_type := "place",
                          entity_id := place_id, action := "deleted",
                          details := item.name })

/-- `POST /places/{place_id}/delete_all_objects` (`delete_all_objects`). -/
def deleteAllObjectsOp (st : CsvState) (place_id : String) (now : Nat) :
    Except DeleteOutcome CsvState :=
  match getPlace st place_id with
  | none => .error .notFound
  | some _ =>
    let res := deleteObjectsByPlace st place_id
    .ok (addAudit res.1 { timestamp := now, entity_type := "place",
                          entity_id := place_id, action := "delete_all_objects",
                          details := toString res.2 })

/-- `POST /logs` (`create_log`): append the manual log entry, then, when the
object exists, overwrite its `place_id`/`put_at` and save it.  `at_form` is
the optional form timestamp (`at_dt = fromisoformat(at) if at else utcnow()`). -/
def createLog (st : CsvState) (object_id place_id notes : String)
    (at_form : Option Nat) (now : Nat) : CsvState :=
  let at_dt := at_form.getD now
  let st1 := addLog st { timestamp := at_dt, object_id := object_id,
                         place_id := place_id, notes := notes }
  match getObject st1 object_id with
  | some obj => saveObject st1 { obj with place_id := place_id, put_at := some at_dt }
  | none => st1

/-- `POST /tags` (`create_tag`). -/
def createTag (st : CsvState) (draws : Nat → Nat)
    (h : ∃ k, ¬ toString (draws k) ∈ (listTags st).map TagItem.id)
    (name : String) (now : Nat) : CsvState × String :=
  let new_id := freshDigitId draws ((listTags st).map TagItem.id) h
  let st1 := saveTag st { id := new_id, name := name }
  let st2 := addAudit st1 { timestamp := now, entity_type := "tag",
                            entity_id := new_id, action := "created", details := name }
  (st2, new_id)

/-- `POST /tags/{tag_id}` (`update_tag`). -/
def updateTag (st : CsvState) (tag_id name : String) (now : Nat) : CsvState :=
  let existing : TagItem :=
    match getTag st tag_id with
    | none => { id := tag_id, name := name }
    | some t => { t with name := name }
  let st1 := saveTag st existing
  addAudit st1 { timestamp := now, entity_type := "tag", entity_id := tag_id,
                 action := "updated", details := name }

/-- `POST /tags/{tag_id}/delete` (`delete_tag` endpoint). -/
def deleteTagOp (st : CsvState) (tag_id : String) (now : Nat) :
    Except DeleteOutcome CsvState :=
  match getTag st tag_id with
  | none => .error .notFound
  | some item =>
    let objs := (listObjects st).filter (fun o => tag_id ∈ o.tags)
    let places := (listPlaces st).filter (fun p => tag_id ∈ p.tags)
    if ¬ objs = [] ∨ ¬ places = [] then .error .conflict
    else
      let st1 := deleteTagRow st tag_id
      .ok (addAudit st1 { timestamp := now, entity_type := "tag",
                          entity_id := tag_id, action := "deleted",
                          details := item.name })

/-! ### Serialization lemmas -/

theorem splitPipe_joinPipe (xs : List String)
    (h : ∀ x ∈ xs, ¬ x = "" ∧ ¬ '|' ∈ x.data) :
    splitPipe (joinPipe xs) = xs := by
  cases xs with
  | nil => rfl
  | cons a as =>
    have hx : ∀ l ∈ (a :: as).map String.data, '|' ∉ l := by
      intro l hl
      rcases List.mem_map.mp hl with ⟨x, hxm, rfl⟩
      exact (h x hxm).2
    have hls : (a :: as).map String.data ≠ [] := by simp
    show (((List.intercalate "|".data ((a :: as).map String.data)).splitOn '|').map
        (fun cs => (⟨cs⟩ : String))).filter (fun t => ¬ t = "") = a :: as
    have hsep : "|".data = ['|'] := rfl
    rw [hsep]
    rw [show (List.intercalate ['|'] ((a :: as).map String.data)) =
        [('|' : Char)].intercalate ((a :: as).map String.data) from rfl]
    rw [List.splitOn_intercalate ((a :: as).map String.data) '|' hx hls]
    rw [List.map_map]
    rw [show ((fun cs => (⟨cs⟩ : String)) ∘ String.data) = id from rfl, List.map_id]
    refine List.filter_eq_self.mpr ?_
    intro x hxm
    simpa using (h x hxm).1

theorem parse_serObject (item : ObjectItem)
    (h : ∀ x ∈ item.images ++ item.images_photo ++ item.tags,
      ¬ x = "" ∧ ¬ '|' ∈ x.data) :
    parseObjectRow (serObject item) = item := by
  have h1 := splitPipe_joinPipe item.images
    (fun x hx => h x (by simp [hx]))
  have h2 := splitPipe_joinPipe item.images_photo
    (fun x hx => h x (by simp [hx]))
  have h3 := splitPipe_joinPipe item.tags
    (fun x hx => h x (by simp [hx]))
  cases item
  simp_all [parseObjectRow, serObject]

theorem parse_serPlace (item : PlaceItem)
    (h : ∀ x ∈ item.images ++ item.images_photo ++ item.tags,
      ¬ x = "" ∧ ¬ '|' ∈ x.data) :
    parsePlaceRow (serPlace item) = item := by
  have h1 := splitPipe_joinPipe item.images
    (fun x hx => h x (by simp [hx]))
  have h2 := splitPipe_joinPipe item.images_photo
    (fun x hx => h x (by simp [hx]))
  have h3 := splitPipe_joinPipe item.tags
    (fun x hx => h x (by simp [hx]))
  cases item
  simp_all [parsePlaceRow, serPlace]

/-! ### Save/get lemmas -/

theorem find?_parse_upsertObject (rows : List ObjectRow) (item : ObjectItem) :
    ((upsertObjectRow rows item).map parseObjectRow).find? (fun it => it.id == item.id)
      = some (parseObjectRow (serObject item)) := by
  induction rows with
  | nil => simp [upsertObjectRow, serObject, parseObjectRow]
  | cons r rest ih =>
    by_cases hid : r.id = item.id
    · simp [upsertObjectRow, hid, serObject, parseObjectRow]
    · simpa [upsertObjectRow, hid, parseObjectRow] using ih

theorem getObject_saveObject_self (st : CsvState) (item : ObjectItem) :
    getObject (saveObject st item) item.id = some (parseObjectRow (serObject item)) :=
  find?_parse_upsertObject st.objects item

theorem find?_parse_upsertPlace (rows : List PlaceRow) (item : PlaceItem) :
    ((upsertPlaceRow rows item).map parsePlaceRow).find? (fun it => it.id == item.id)
      = some (parsePlaceRow (serPlace item)) := by
  induction rows with
  | nil => simp [upsertPlaceRow, serPlace, parsePlaceRow]
  | cons r rest ih =>
    by_cases hid : r.id = item.id
    · simp [upsertPlaceRow, hid, serPlace, parsePlaceRow]
    · simpa [upsertPlaceRow, hid, parsePlaceRow] using ih

theorem getPlace_savePlace_self (st : CsvState) (item : PlaceItem) :
    getPlace (savePlace st item) item.id = some (parsePlaceRow (serPlace item)) :=
  find?_parse_upsertPlace st.places item

theorem find?_upsertTag (rows : List TagItem) (item : TagItem) :
    (upsertTagRow rows item).find? (fun t => t.id == item.id) = some item := by
  induction rows with
  | nil => simp [upsertTagRow]
  | cons r rest ih =>
    by_cases hid : r.id = item.id
    · simp [upsertTagRow, hid]
    · simpa [upsertTagRow, hid] using ih

theorem getTag_saveTag_self (st : CsvState) (item : TagItem) :
    getTag (saveTag st item) item.id = some item :=
  find?_upsertTag st.tags item

/-! ### Upsert lemmas -/

theorem getObject_eq_none_iff (st : CsvState) (oid : String) :
    getObject st oid = none ↔ ∀ r ∈ st.objects, ¬ r.id = oid := by
  unfold getObject listObjects
  rw [List.find?_eq_none]
  constructor
  · intro h r hr
    have := h (parseObjectRow r) (List.mem_map_of_mem _ hr)
    simpa [parseObjectRow] using this
  · intro h it hit
    rcases List.mem_map.mp hit with ⟨r, hr, rfl⟩
    simpa [parseObjectRow] using h r hr

theorem upsertObjectRow_of_absent (rows : List ObjectRow) (item : ObjectItem)
    (h : ∀ r ∈ rows, ¬ r.id = item.id) :
    upsertObjectRow rows item = rows ++ [serObject item] := by
  induction rows with
  | nil => rfl
  | cons r rest ih =>
    have hr : ¬ r.id = item.id := h r (by simp)
    simp [upsertObjectRow, hr, ih (fun x hx => h x (by simp [hx]))]

theorem upsertObjectRow_filter_ne (rows : List ObjectRow) (item : ObjectItem) :
    (upsertObjectRow rows item).filter (fun r => ¬ r.id = item.id)
      = rows.filter (fun r => ¬ r.id = item.id) := by
  induction rows with
  | nil => simp [upsertObjectRow, serObject]
  | cons r rest ih =>
    simp only [decide_not] at ih ⊢
    by_cases hid : r.id = item.id
    · simp [upsertObjectRow, hid, List.filter_cons, serObject]
    · simp [upsertObjectRow, hid, List.filter_cons, ih]

theorem countP_eq_one_of_nodup {α : Type} (f : α → String) (rows : List α) (x : String)
    (hnd : (rows.map f).Nodup) (hx : ∃ r ∈ rows, f r = x) :
    rows.countP (fun r => f r == x) = 1 := by
  induction rows with
  | nil => simp at hx
  | cons r rest ih =>
    rw [List.map_cons, List.nodup_cons] at hnd
    by_cases hr : f r = x
    · have hrest : rest.countP (fun a => f a == x) = 0 := by
        rw [List.countP_eq_zero]
        intro a ha
        have hne : ¬ f a = x := by
          intro hax
          exact hnd.1 (hr ▸ hax ▸ List.mem_map_of_mem f ha)
        simp [hne]
      rw [List.countP_cons]
      simp [hr, hrest]
    · have hx' : ∃ a ∈ rest, f a = x := by
        rcases hx with ⟨a, ha, hax⟩
        rcases List.mem_cons.mp ha with h1 | h1
        · exact absurd (h1 ▸ hax) hr
        · exact ⟨a, h1, hax⟩
      rw [List.countP_cons]
      simp [hr, ih hnd.2 hx']

theorem upsertObjectRow_countP (rows : List ObjectRow) (item : ObjectItem)
    (hnd : (rows.map ObjectRow.id).Nodup) :
    (upsertObjectRow rows item).countP (fun r => r.id == item.id) = 1 := by
  induction rows with
  | nil => simp [upsertObjectRow, serObject]
  | cons r rest ih =>
    rw [List.map_cons, List.nodup_cons] at hnd
    by_cases hid : r.id = item.id
    · have hrest : rest.countP (fun a => a.id == item.id) = 0 := by
        rw [List.countP_eq_zero]
        intro a ha
        have hne : ¬ a.id = item.id := by
          intro hax
          exact hnd.1 (hid ▸ hax ▸ List.mem_map_of_mem ObjectRow.id ha)
        simp [hne]
      simp [upsertObjectRow, hid, List.countP_cons, serObject, hrest]
    · simp [upsertObjectRow, hid, List.countP_cons, ih hnd.2]

theorem upsert_eq_set_of_rowIdxOf (rows : List ObjectRow) (item : ObjectItem) :
    ∀ j, rowIdxOf item.id rows = some j →
      upsertObjectRow rows item = rows.set j (serObject item) := by
  induction rows with
  | nil => intro j h; simp [rowIdxOf] at h
  | cons r rest ih =>
    intro j h
    by_cases hid : r.id = item.id
    · simp [rowIdxOf, hid] at h
      subst h
      simp [upsertObjectRow, hid]
    · simp [rowIdxOf, hid] at h
      rcases h with ⟨j', hj', rfl⟩
      simp [upsertObjectRow, hid, ih j' hj', List.set]

theorem rowIdxOf_eq_none_iff (rows : List ObjectRow) (item_id : String) :
    rowIdxOf item_id rows = none ↔ ∀ r ∈ rows, ¬ r.id = item_id := by
  induction rows with
  | nil => simp [rowIdxOf]
  | cons r rest ih =>
    by_cases hid : r.id = item_id
    · simp [rowIdxOf, hid]
    · simp [rowIdxOf, hid, ih]

theorem sheetsSaveObject_eq_upsert (rows : List ObjectRow) (item : ObjectItem) :
    sheetsSaveObject rows item = upsertObjectRow rows item := by
  unfold sheetsSaveObject
  cases hidx : rowIdxOf item.id rows with
  | none =>
    rw [upsertObjectRow_of_absent rows item ((rowIdxOf_eq_none_iff rows item.id).mp hidx)]
  | some j => rw [upsert_eq_set_of_rowIdxOf rows item j hidx]

/-! ### Bulk-delete lemmas -/

theorem matchIdxs_ge (pid : String) : ∀ (rows : List ObjectRow) (k j : Nat),
    j ∈ matchIdxs pid k rows → k ≤ j := by
  intro rows
  induction rows with
  | nil => intro k j hj; simp [matchIdxs] at hj
  | cons r rest ih =>
    intro k j hj
    by_cases hp : r.place_id = pid
    · simp [matchIdxs, hp] at hj
      rcases hj with rfl | hj
      · exact Nat.le_refl _
      · exact Nat.le_of_succ_le (ih (k + 1) j hj)
    · simp [matchIdxs, hp] at hj
      exact Nat.le_of_succ_le (ih (k + 1) j hj)

theorem foldl_erase_cons : ∀ (is : List Nat) (k : Nat) (r : ObjectRow) (l : List ObjectRow),
    (∀ i ∈ is, k + 1 ≤ i) →
    is.foldl (fun acc i => acc.eraseIdx (i - k)) (r :: l)
      = r :: is.foldl (fun acc i => acc.eraseIdx (i - (k + 1))) l := by
  intro is
  induction is with
  | nil => intros; rfl
  | cons i is ih =>
    intro k r l hge
    have hi : k + 1 ≤ i := hge i (by simp)
    have hsub : i - k = (i - (k + 1)) + 1 := by omega
    simp only [List.foldl_cons, hsub, List.eraseIdx_cons_succ]
    exact ih k r _ (fun j hj => hge j (by simp [hj]))

theorem foldl_erase_matchIdxs (pid : String) : ∀ (rows : List ObjectRow) (k : Nat),
    ((matchIdxs pid k rows).reverse).foldl (fun acc i => acc.eraseIdx (i - k)) rows
      = rows.filter (fun r => ¬ r.place_id = pid) := by
  intro rows
  induction rows with
  | nil => intro k; rfl
  | cons r rest ih =>
    intro k
    have hge : ∀ i ∈ (matchIdxs pid (k + 1) rest).reverse, k + 1 ≤ i :=
      fun i hi => matchIdxs_ge pid rest (k + 1) i (List.mem_reverse.mp hi)
    by_cases hp : r.place_id = pid
    · rw [show matchIdxs pid k (r :: rest) = k :: matchIdxs pid (k + 1) rest by
        simp [matchIdxs, hp]]
      rw [List.reverse_cons, List.foldl_append]
      rw [foldl_erase_cons _ k r rest hge, ih (k + 1)]
      simp [List.filter_cons, hp]
    · rw [show matchIdxs pid k (r :: rest) = matchIdxs pid (k + 1) rest by
        simp [matchIdxs, hp]]
      rw [foldl_erase_cons _ k r rest hge, ih (k + 1)]
      simp [List.filter_cons, hp]

theorem matchIdxs_length (pid : String) : ∀ (rows : List ObjectRow) (k : Nat),
    (matchIdxs pid k rows).length = rows.countP (fun r => r.place_id == pid) := by
  intro rows
  induction rows with
  | nil => intro k; rfl
  | cons r rest ih =>
    intro k
    by_cases hp : r.place_id = pid
    · simp [matchIdxs, hp, List.countP_cons, ih (k + 1), Nat.add_comm]
    · simp [matchIdxs, hp, List.countP_cons, ih (k + 1)]

theorem insertNatGe_of_all_lt (a : Nat) : ∀ (l : List Nat), (∀ b ∈ l, a < b) →
    insertNatGe a l = l ++ [a] := by
  intro l
  induction l with
  | nil => intros; rfl
  | cons b bs ih =>
    intro h
    have hb : ¬ b ≤ a := by
      have := h b (by simp)
      omega
    simp [insertNatGe, hb, ih (fun c hc => h c (by simp [hc]))]

theorem sortDescNat_of_pairwise_lt : ∀ (l : List Nat), l.Pairwise (· < ·) →
    sortDescNat l = l.reverse := by
  intro l
  induction l with
  | nil => intros; rfl
  | cons a as ih =>
    intro h
    rw [List.pairwise_cons] at h
    rw [List.reverse_cons]
    show insertNatGe a (sortDescNat as) = as.reverse ++ [a]
    rw [ih h.2]
    exact insertNatGe_of_all_lt a as.reverse (fun b hb => h.1 b (List.mem_reverse.mp hb))

theorem matchIdxs_pairwise (pid : String) : ∀ (rows : List ObjectRow) (k : Nat),
    (matchIdxs pid k rows).Pairwise (· < ·) := by
  intro rows
  induction rows with
  | nil => intro k; simp [matchIdxs]
  | cons r rest ih =>
    intro k
    by_cases hp : r.place_id = pid
    · rw [show matchIdxs pid k (r :: rest) = k :: matchIdxs pid (k + 1) rest by
        simp [matchIdxs, hp]]
      rw [List.pairwise_cons]
      refine ⟨fun j hj => ?_, ih (k + 1)⟩
      have := matchIdxs_ge pid rest (k + 1) j hj
      omega
    · simpa [matchIdxs, hp] using ih (k + 1)

theorem sheetsDeleteObjectsByPlace_spec (rows : List ObjectRow) (pid : String) :
    (sheetsDeleteObjectsByPlace rows pid).1 = rows.filter (fun r => ¬ r.place_id = pid) ∧
    (sheetsDeleteObjectsByPlace rows pid).2 = rows.countP (fun r => r.place_id == pid) := by
  constructor
  · show (sortDescNat (matchIdxs pid 2 rows)).foldl eraseSheetRow rows = _
    rw [sortDescNat_of_pairwise_lt _ (matchIdxs_pairwise pid rows 2)]
    exact foldl_erase_matchIdxs pid rows 2
  · exact matchIdxs_length pid rows 2

theorem length_sub_length_filter_not (rows : List ObjectRow) (pid : String) :
    rows.length - (rows.filter (fun r => ¬ r.place_id = pid)).length
      = rows.countP (fun r => r.place_id == pid) := by
  induction rows with
  | nil => rfl
  | cons r rest ih =>
    have hle : (rest.filter (fun r => ¬ r.place_id = pid)).length ≤ rest.length :=
      List.length_filter_le _ rest
    by_cases hp : r.place_id = pid
    · have hstep : (r :: rest).filter (fun r => ¬ r.place_id = pid)
          = rest.filter (fun r => ¬ r.place_id = pid) := by
        simp [List.filter_cons, hp]
      have hcnt : (r :: rest).countP (fun r => r.place_id == pid)
          = rest.countP (fun r => r.place_id == pid) + 1 := by
        simp [List.countP_cons, hp]
      rw [hstep, hcnt, List.length_cons]
      omega
    · have hstep : (r :: rest).filter (fun r => ¬ r.place_id = pid)
          = r :: rest.filter (fun r => ¬ r.place_id = pid) := by
        simp [List.filter_cons, hp]
      have hcnt : (r :: rest).countP (fun r => r.place_id == pid)
          = rest.countP (fun r => r.place_id == pid) := by
        simp [List.countP_cons, hp]
      rw [hstep, hcnt, List.length_cons, List.length_cons]
      omega

theorem countP_filter_not_zero (rows : List ObjectRow) (pid : String) :
    (rows.filter (fun r => ¬ r.place_id = pid)).countP (fun r => r.place_id == pid) = 0 := by
  rw [List.countP_eq_zero]
  intro a ha
  have h2 := (List.mem_filter.mp ha).2
  simp at h2 ⊢
  exact h2

/-! ### Decimal representation lemmas (for the 5-digit id loop) -/

theorem toDigitsCore_length_eq : ∀ (n fuel : Nat) (ds : List Char), n < fuel →
    (Nat.toDigitsCore 10 fuel n ds).length = ds.length + Nat.log 10 n + 1 := by
  intro n
  induction n using Nat.strong_induction_on with
  | _ n ih =>
    intro fuel ds hfuel
    match fuel, hfuel with
    | fuel + 1, hfuel =>
      have hstep : Nat.toDigitsCore 10 (fuel + 1) n ds =
          if n / 10 = 0 then Nat.digitChar (n % 10) :: ds
          else Nat.toDigitsCore 10 fuel (n / 10) (Nat.digitChar (n % 10) :: ds) := rfl
      rw [hstep]
      by_cases hdiv : n / 10 = 0
      · rw [if_pos hdiv]
        have hlt : n < 10 := by omega
        have hlog : Nat.log 10 n = 0 := Nat.log_eq_zero_iff.mpr (Or.inl hlt)
        simp [hlog]
      · rw [if_neg hdiv]
        have hge : 10 ≤ n := by omega
        have hpos : 0 < n := by omega
        have hdivlt : n / 10 < n := Nat.div_lt_self hpos (by norm_num)
        have hfuel' : n / 10 < fuel := by omega
        rw [ih (n / 10) hdivlt fuel (Nat.digitChar (n % 10) :: ds) hfuel']
        have hld : Nat.log 10 (n / 10) = Nat.log 10 n - 1 := Nat.log_div_base 10 n
        have hlpos : 0 < Nat.log 10 n := Nat.log_pos (by norm_num) hge
        rw [hld, List.length_cons]
        omega

theorem repr_length_eq (n : Nat) : (Nat.repr n).length = Nat.log 10 n + 1 := by
  show (Nat.toDigitsCore 10 (n + 1) n []).length = _
  rw [toDigitsCore_length_eq n (n + 1) [] (Nat.lt_succ_self n)]
  simp

theorem repr_length_five (n : Nat) (h1 : 10000 ≤ n) (h2 : n ≤ 99999) :
    (Nat.repr n).length = 5 := by
  rw [repr_length_eq]
  have h4 : (10 : Nat) ^ 4 = 10000 := by norm_num
  have h5 : (10 : Nat) ^ 5 = 100000 := by norm_num
  have hlog : Nat.log 10 n = 4 :=
    Nat.log_eq_of_pow_le_of_lt_pow (by omega) (by omega)
  omega

theorem digitChar_isDigit (d : Nat) (h : d < 10) : (Nat.digitChar d).isDigit = true := by
  interval_cases d <;> decide

theorem toDigitsCore_all_digits : ∀ (fuel n : Nat) (ds : List Char),
    (∀ c ∈ ds, c.isDigit = true) →
    ∀ c ∈ Nat.toDigitsCore 10 fuel n ds, c.isDigit = true := by
  intro fuel
  induction fuel with
  | zero => intro n ds hds; simpa [Nat.toDigitsCore] using hds
  | succ fuel ih =>
    intro n ds hds c hc
    have hstep : Nat.toDigitsCore 10 (fuel + 1) n ds =
        if n / 10 = 0 then Nat.digitChar (n % 10) :: ds
        else Nat.toDigitsCore 10 fuel (n / 10) (Nat.digitChar (n % 10) :: ds) := rfl
    rw [hstep] at hc
    have hddig : ∀ c' ∈ Nat.digitChar (n % 10) :: ds, c'.isDigit = true := by
      intro c' hc'
      rcases List.mem_cons.mp hc' with rfl | hc'
      · exact digitChar_isDigit _ (Nat.mod_lt n (by norm_num))
      · exact hds c' hc'
    by_cases hdiv : n / 10 = 0
    · rw [if_pos hdiv] at hc
      exact hddig c hc
    · rw [if_neg hdiv] at hc
      exact ih (n / 10) _ hddig c hc

theorem repr_all_digits (n : Nat) : ∀ c ∈ (Nat.repr n).data, c.isDigit = true := by
  intro c hc
  have hdata : (Nat.repr n).data = Nat.toDigitsCore 10 (n + 1) n [] := rfl
  rw [hdata] at hc
  exact toDigitsCore_all_digits (n + 1) n [] (by simp) c hc

theorem toString_nat_eq_repr (n : Nat) : toString n = Nat.repr n := rfl

/-! ### Claim C1 -/

/-- A one-object state: object `"11111"` is stored at place `"40000"` with
`put_at = some 5`. -/
def csvC1 : CsvState :=
  ⟨[⟨"11111", "obj", "", "", "", "", "40000", some 5⟩], [], [], [], []⟩

/-- C1, counterexample: updating object `"11111"` (previous `place_id`
`"40000"`, `put_at = some 5`) with an empty submitted `place_id` stores
`place_id = ""` but keeps `put_at = some 5`; the claim says `put_at` becomes
null, and the invariant `put_at` null iff `place_id` empty fails. -/
theorem C1_counterexample :
    (getObject (updateObject csvC1 "11111" "obj" "" "" none [] [] none 77) "11111").map
        (fun it => (it.place_id, it.put_at)) = some ("", some 5)
      ∧ ¬ ((some 5 : Option Nat) = none) := by
  constructor
  · decide
  · decide

/-- C1, amended: when an existing Object is updated with an empty submitted
`place_id`, the stored Object keeps its previous `put_at` value unchanged
(it does not become null), and — provided the tag set is unchanged — no
LogEntry is appended for the transition. -/
theorem C1_clear_place_keeps_put_at (st : CsvState)
    (oid name desc imagesRaw : String) (newPhotos : List String)
    (remove_photo : List Nat) (tags : Option (List String)) (now : Nat)
    (prev : ObjectItem) (hprev : getObject st oid = some prev)
    (hplace : ¬ prev.place_id = "")
    (htags : ∀ t, t ∈ cleanList (tags.getD []) ↔ t ∈ prev.tags) :
    ∃ it, getObject (updateObject st oid name desc imagesRaw none newPhotos
          remove_photo tags now) oid = some it
      ∧ it.place_id = "" ∧ it.put_at = prev.put_at
      ∧ (updateObject st oid name desc imagesRaw none newPhotos
          remove_photo tags now).logs = st.logs := by
  have hfA : (cleanList (tags.getD [])).filter (fun t => ¬ t ∈ prev.tags) = [] := by
    rw [List.filter_eq_nil_iff]
    intro t ht
    simp [(htags t).mp ht]
  have hfR : prev.tags.filter (fun t => ¬ t ∈ cleanList (tags.getD [])) = [] := by
    rw [List.filter_eq_nil_iff]
    intro t ht
    simp [(htags t).mpr ht]
  have hA : addedTags prev.tags tags = [] := by
    unfold addedTags
    rw [hfA]
    rfl
  have hR : removedTags prev.tags tags = [] := by
    unfold removedTags
    rw [hfR]
    rfl
  simp only [updateObject, hprev]
  simp only [Option.getD_none]
  simp [hA, hR]
  exact ⟨_, getObject_saveObject_self st _, rfl, rfl, rfl⟩

/-- C1 witness: the amended theorem applied to the concrete one-object
state `csvC1`. -/
theorem C1_clear_place_keeps_put_at_witness :
    ∃ it, getObject (updateObject csvC1 "11111" "obj" "" "" none [] [] none 77) "11111"
        = some it
      ∧ it.place_id = "" ∧ it.put_at = some 5
      ∧ (updateObject csvC1 "11111" "obj" "" "" none [] [] none 77).logs = csvC1.logs :=
  C1_clear_place_keeps_put_at csvC1 "11111" "obj" "" "" [] [] none 77
    ⟨"11111", "obj", "", [], [], [], "40000", some 5⟩ (by decide) (by decide)
    (fun t => by simp [cleanList])

/-! ### Claim C2 -/

/-- C2: for records whose multi-valued fields contain no empty string and no
`'|'` delimiter, `save_*` followed by `get_*` on the same id returns the
record unchanged (Object, Place and Tag round-trips on the CSV backend). -/
theorem C2_save_get_roundtrip (st : CsvState) (item : ObjectItem)
    (pitem : PlaceItem) (titem : TagItem)
    (hobj : ∀ x ∈ item.images ++ item.images_photo ++ item.tags,
      ¬ x = "" ∧ ¬ '|' ∈ x.data)
    (hpl : ∀ x ∈ pitem.images ++ pitem.images_photo ++ pitem.tags,
      ¬ x = "" ∧ ¬ '|' ∈ x.data) :
    getObject (saveObject st item) item.id = some item
      ∧ getPlace (savePlace st pitem) pitem.id = some pitem
      ∧ getTag (saveTag st titem) titem.id = some titem := by
  refine ⟨?_, ?_, getTag_saveTag_self st titem⟩
  · rw [getObject_saveObject_self st item, parse_serObject item hobj]
  · rw [getPlace_savePlace_self st pitem, parse_serPlace pitem hpl]

/-- C2 witness: a concrete round-trip through the empty state for an Object
with two images, one uploaded photo and two tags, a Place with one tag, and
a Tag. -/
theorem C2_save_get_roundtrip_witness :
    getObject
        (saveObject ⟨[], [], [], [], []⟩
          ⟨"10001", "n", "d", ["u1", "u2"], ["p1"], ["t1", "t2"], "20002", some 3⟩)
        "10001"
      = some ⟨"10001", "n", "d", ["u1", "u2"], ["p1"], ["t1", "t2"], "20002", some 3⟩
      ∧ getPlace
          (savePlace ⟨[], [], [], [], []⟩ ⟨"20002", "pn", "pd", [], [], ["t1"], none⟩)
          "20002"
        = some ⟨"20002", "pn", "pd", [], [], ["t1"], none⟩
      ∧ getTag (saveTag ⟨[], [], [], [], []⟩ ⟨"30003", "tn"⟩) "30003"
        = some ⟨"30003", "tn"⟩ :=
  C2_save_get_roundtrip ⟨[], [], [], [], []⟩
    ⟨"10001", "n", "d", ["u1", "u2"], ["p1"], ["t1", "t2"], "20002", some 3⟩
    ⟨"20002", "pn", "pd", [], [], ["t1"], none⟩ ⟨"30003", "tn"⟩
    (by decide) (by decide)

/-! ### Claim C3 -/

/-- A one-object state with no tags (object `"22222"`). -/
def csvC3 : CsvState :=
  ⟨[⟨"22222", "o", "", "", "", "", "", none⟩], [], [], [], []⟩

/-- A one-object state where object `"33333"` has tags `a` and `b`
(stored cell `"a|b"`). -/
def csvC3b : CsvState :=
  ⟨[⟨"33333", "o2", "", "", "", "a|b", "", none⟩], [], [], [], []⟩

/-- C3, counterexample: updating the tags of object `"22222"` from `{}` to
`{"c","d"}` appends one LogEntry whose notes are `"auto: tags +c,d"` — the
added tags are comma-joined after a single `+`, not each prefixed with `+`
and space-separated: the substring `"+d"` does not occur, and the notes
differ from the claimed `"auto: tags +c +d"` shape. -/
theorem C3_counterexample :
    (updateObject csvC3 "22222" "o" "" "" none [] [] (some ["c", "d"]) 9).logs.map
        LogItem.notes = ["auto: tags +c,d"]
      ∧ ¬ List.IsInfix "+d".data "auto: tags +c,d".data
      ∧ ¬ ("auto: tags +c,d" = "auto: tags +c +d") :=
  ⟨by decide, by decide, by decide⟩

/-- C3, amended: on Object update (with unchanged `place_id` input), when the
symmetric tag-set difference is non-empty, exactly one LogEntry is appended;
its notes are `"auto: tags "` followed by at most two space-separated parts:
a single `+` followed by the comma-joined sorted added tags, and a single `-`
followed by the comma-joined sorted removed tags.  When the symmetric
difference is empty no tag-diff LogEntry is appended. -/
theorem C3_tag_diff_log (st : CsvState) (oid name desc imagesRaw : String)
    (newPhotos : List String) (remove_photo : List Nat) (tags : Option (List String))
    (now : Nat) (prev : ObjectItem) (hprev : getObject st oid = some prev) :
    (¬ addedTags prev.tags tags = [] ∨ ¬ removedTags prev.tags tags = [] →
      (updateObject st oid name desc imagesRaw none newPhotos remove_photo tags now).logs
        = st.logs ++ [⟨now, oid, prev.place_id, tagDiffNotes prev.tags tags⟩])
    ∧ (addedTags prev.tags tags = [] → removedTags prev.tags tags = [] →
      (updateObject st oid name desc imagesRaw none newPhotos remove_photo tags now).logs
        = st.logs) := by
  constructor
  · intro hc
    simp only [updateObject, hprev]
    rw [if_pos hc]
    rfl
  · intro h1 h2
    simp only [updateObject, hprev]
    rw [if_neg (by simp [h1, h2])]
    rfl

/-- C3 witness: the spec's example — updating tags from `{"a","b"}` to
`{"b","c"}` appends exactly one LogEntry with notes `"auto: tags +c -a"`,
which contains both `+c` and `-a`. -/
theorem C3_tag_diff_log_witness :
    (updateObject csvC3b "33333" "o2" "" "" none [] [] (some ["b", "c"]) 9).logs
      = csvC3b.logs ++ [⟨9, "33333", "", "auto: tags +c -a"⟩] :=
  (C3_tag_diff_log csvC3b "33333" "o2" "" "" [] [] (some ["b", "c"]) 9
    ⟨"33333", "o2", "", [], [], ["a", "b"], "", none⟩ (by decide)).1 (by decide)

/-! ### Claim C4 -/

/-- Three sheet rows: two at place `"p"` (sheet indices 2 and 3) and one at
`"q"` (sheet index 4). -/
def ascRowsEx : List ObjectRow :=
  [⟨"1", "A", "", "", "", "", "p", none⟩,
   ⟨"2", "B", "", "", "", "", "p", none⟩,
   ⟨"3", "C", "", "", "", "", "q", none⟩]

/-- C4: `delete_objects_by_place` removes exactly the Objects whose
`place_id` equals the argument, leaves every other table and row unchanged,
and returns the exact number removed; an immediate second call returns 0.
The spreadsheet backend, which deletes the matching sheet indices in
descending order, computes the same filter; deleting the same indices in
ascending order instead would give a different, wrong result, so the
descending order is required. -/
theorem C4_delete_objects_by_place (st : CsvState) (pid : String) :
    ((deleteObjectsByPlace st pid).1.objects
        = st.objects.filter (fun r => ¬ r.place_id = pid))
      ∧ ((deleteObjectsByPlace st pid).1.places = st.places
        ∧ (deleteObjectsByPlace st pid).1.tags = st.tags
        ∧ (deleteObjectsByPlace st pid).1.logs = st.logs
        ∧ (deleteObjectsByPlace st pid).1.audit = st.audit)
      ∧ ((deleteObjectsByPlace st pid).2
        = st.objects.countP (fun r => r.place_id == pid))
      ∧ ((deleteObjectsByPlace (deleteObjectsByPlace st pid).1 pid).2 = 0)
      ∧ (∀ rows : List ObjectRow,
        (sheetsDeleteObjectsByPlace rows pid).1
            = rows.filter (fun r => ¬ r.place_id = pid)
          ∧ (sheetsDeleteObjectsByPlace rows pid).2
            = rows.countP (fun r => r.place_id == pid))
      ∧ ¬ (sheetsDeleteAscending ascRowsEx "p"
        = ascRowsEx.filter (fun r => ¬ r.place_id = "p")) := by
  refine ⟨rfl, ⟨rfl, rfl, rfl, rfl⟩, ?_, ?_, ?_, by decide⟩
  · exact length_sub_length_filter_not st.objects pid
  · exact (length_sub_length_filter_not
      (st.objects.filter (fun r => ¬ r.place_id = pid)) pid).trans
      (countP_filter_not_zero st.objects pid)
  · exact fun rows => sheetsDeleteObjectsByPlace_spec rows pid

/-! ### Claim C5 -/

theorem place_filter_length (rows : List PlaceRow) (pid : String)
    (hnd : (rows.map PlaceRow.id).Nodup) (hx : ∃ r ∈ rows, r.id = pid) :
    (rows.filter (fun r => ¬ r.id = pid)).length + 1 = rows.length := by
  simp only [decide_not]
  induction rows with
  | nil => simp at hx
  | cons r rest ih =>
    rw [List.map_cons, List.nodup_cons] at hnd
    by_cases hr : r.id = pid
    · have hrest : rest.filter (fun x => !decide (x.id = pid)) = rest := by
        rw [List.filter_eq_self]
        intro a ha
        have hne : ¬ a.id = pid :=
          fun hax => hnd.1 (hr ▸ hax ▸ List.mem_map_of_mem PlaceRow.id ha)
        simp [hne]
      simp [List.filter_cons, hr, hrest]
    · have hx' : ∃ a ∈ rest, a.id = pid := by
        rcases hx with ⟨a, ha, hax⟩
        rcases List.mem_cons.mp ha with h1 | h1
        · exact absurd (h1 ▸ hax) hr
        · exact ⟨a, h1, hax⟩
      have hlen := ih hnd.2 hx'
      simp [List.filter_cons, hr, List.length_cons]
      omega

/-- C5: with unique Place ids, deleting a Place referenced by at least one
Object is rejected with the conflict signal (the handler re-renders without
touching storage, so no table changes and no audit entry is written), while
deleting a Place referenced by no Object succeeds, removes exactly the one
row with that id from the Place table, leaves the other tables unchanged,
and appends one deletion audit entry. -/
theorem C5_delete_place_guard (st : CsvState) (pid : String) (now : Nat)
    (p : PlaceItem) (hp : getPlace st pid = some p)
    (hnd : (st.places.map PlaceRow.id).Nodup) :
    ((∃ o ∈ listObjects st, o.place_id = pid) →
        deletePlaceOp st pid now = .error .conflict)
      ∧ ((∀ o ∈ listObjects st, ¬ o.place_id = pid) →
        ∃ st', deletePlaceOp st pid now = .ok st'
          ∧ st'.places = st.places.filter (fun r => ¬ r.id = pid)
          ∧ st'.places.length + 1 = st.places.length
          ∧ st'.objects = st.objects ∧ st'.tags = st.tags ∧ st'.logs = st.logs
          ∧ st'.audit = st.audit ++ [⟨now, "place", pid, "deleted", p.name⟩]) := by
  constructor
  · rintro ⟨o, ho, hop⟩
    have hne : ¬ (listObjects st).filter (fun o => o.place_id == pid) = [] := by
      intro hnil
      have hmem : o ∈ (listObjects st).filter (fun o => o.place_id == pid) := by
        rw [List.mem_filter]
        exact ⟨ho, by simp [hop]⟩
      rw [hnil] at hmem
      simp at hmem
    simp only [deletePlaceOp, hp]
    rw [if_pos hne]
  · intro hno
    have hnil : (listObjects st).filter (fun o => o.place_id == pid) = [] := by
      rw [List.filter_eq_nil_iff]
      intro o ho
      simpa using hno o ho
    have heq : deletePlaceOp st pid now
        = .ok (addAudit (deletePlaceRow st pid)
            ⟨now, "place", pid, "deleted", p.name⟩) := by
      simp only [deletePlaceOp, hp, hnil]
      simp
    refine ⟨_, heq, rfl, ?_, rfl, rfl, rfl, rfl⟩
    have hpm : p ∈ listPlaces st := List.mem_of_find?_eq_some hp
    have hpid : p.id = pid := by
      have := List.find?_some hp
      simpa using this
    rcases List.mem_map.mp hpm with ⟨row, hrow, hparse⟩
    have hrowid : row.id = pid := by
      rw [← hpid, ← hparse]
      rfl
    exact place_filter_length st.places pid hnd ⟨row, hrow, hrowid⟩

/-- A state with one Place `"77777"` and one Object stored at it. -/
def stC5a : CsvState :=
  ⟨[⟨"55555", "o", "", "", "", "", "77777", some 1⟩],
   [⟨"77777", "pl", "", "", "", "", none⟩], [], [], []⟩

/-- A state with one Place `"77777"` and no Objects. -/
def stC5b : CsvState :=
  ⟨[], [⟨"77777", "pl", "", "", "", "", none⟩], [], [], []⟩

/-- C5 witness: the guard theorem applied to a referenced Place (rejected)
and to an unreferenced Place (deleted with one audit entry). -/
theorem C5_delete_place_guard_witness :
    deletePlaceOp stC5a "77777" 3 = .error .conflict
      ∧ ∃ st', deletePlaceOp stC5b "77777" 3 = .ok st'
        ∧ st'.places = stC5b.places.filter (fun r => ¬ r.id = "77777")
        ∧ st'.places.length + 1 = stC5b.places.length
        ∧ st'.objects = stC5b.objects ∧ st'.tags = stC5b.tags
        ∧ st'.logs = stC5b.logs
        ∧ st'.audit = stC5b.audit ++ [⟨3, "place", "77777", "deleted", "pl"⟩] :=
  ⟨(C5_delete_place_guard stC5a "77777" 3 ⟨"77777", "pl", "", [], [], [], none⟩
      (by decide) (by decide)).1
      ⟨⟨"55555", "o", "", [], [], [], "77777", some 1⟩, by decide, by decide⟩,
   (C5_delete_place_guard stC5b "77777" 3 ⟨"77777", "pl", "", [], [], [], none⟩
      (by decide) (by decide)).2 (by decide)⟩

/-! ### Claim C6 -/

/-- C6: on a state with unique Object ids, `save_object` is an upsert by id:
afterwards the table holds exactly one row with the saved id, every row with
a different id is untouched, reading the id back yields the saved record's
row, and if the id was absent the row is appended at the end; the other four
tables are untouched, and the spreadsheet backend's save (single-row update
or append) produces exactly the same table. -/
theorem C6_save_upsert (st : CsvState) (item : ObjectItem)
    (hnd : (st.objects.map ObjectRow.id).Nodup) :
    ((saveObject st item).objects.countP (fun r => r.id == item.id) = 1)
      ∧ ((saveObject st item).objects.filter (fun r => ¬ r.id = item.id)
        = st.objects.filter (fun r => ¬ r.id = item.id))
      ∧ (getObject (saveObject st item) item.id
        = some (parseObjectRow (serObject item)))
      ∧ (getObject st item.id = none →
        (saveObject st item).objects = st.objects ++ [serObject item])
      ∧ ((saveObject st item).places = st.places
        ∧ (saveObject st item).tags = st.tags
        ∧ (saveObject st item).logs = st.logs
        ∧ (saveObject st item).audit = st.audit)
      ∧ (sheetsSaveObject st.objects item = (saveObject st item).objects) := by
  refine ⟨upsertObjectRow_countP st.objects item hnd,
    upsertObjectRow_filter_ne st.objects item,
    getObject_saveObject_self st item, ?_, ⟨rfl, rfl, rfl, rfl⟩,
    sheetsSaveObject_eq_upsert st.objects item⟩
  intro habs
  exact upsertObjectRow_of_absent st.objects item
    ((getObject_eq_none_iff st item.id).mp habs)

/-- C6 witness: saving over an existing id keeps exactly one row for it;
saving a fresh id appends the serialized row. -/
theorem C6_save_upsert_witness :
    ((saveObject ⟨[⟨"10001", "old", "", "", "", "", "", none⟩], [], [], [], []⟩
        ⟨"10001", "new", "d", [], [], [], "", none⟩).objects.countP
        (fun r => r.id == "10001") = 1)
      ∧ ((saveObject ⟨[⟨"10001", "old", "", "", "", "", "", none⟩], [], [], [], []⟩
        ⟨"10002", "n2", "", [], [], [], "", none⟩).objects
        = [⟨"10001", "old", "", "", "", "", "", none⟩]
          ++ [serObject ⟨"10002", "n2", "", [], [], [], "", none⟩]) :=
  ⟨(C6_save_upsert ⟨[⟨"10001", "old", "", "", "", "", "", none⟩], [], [], [], []⟩
      ⟨"10001", "new", "d", [], [], [], "", none⟩ (by decide)).1,
   (C6_save_upsert ⟨[⟨"10001", "old", "", "", "", "", "", none⟩], [], [], [], []⟩
      ⟨"10002", "n2", "", [], [], [], "", none⟩ (by decide)).2.2.2.1 (by decide)⟩

/-! ### Claim C7 -/

/-- C7: whenever every random draw lies in `[10000, 99999]` and some draw is
not already taken, the id-generation loop (shared by Object, Place and Tag
creation) returns a string of exactly 5 ASCII digits that collides with no
existing id; moreover, as soon as the draw stream is fair (eventually emits
every candidate) and fewer than all 90 000 candidate ids are taken, such a
fresh draw exists, so the loop terminates. -/
theorem C7_fresh_digit_id (draws : Nat → Nat) (existing : List String)
    (hrange : ∀ k, 10000 ≤ draws k ∧ draws k ≤ 99999)
    (h : ∃ k, ¬ toString (draws k) ∈ existing) :
    (freshDigitId draws existing h).length = 5
      ∧ (∀ c ∈ (freshDigitId draws existing h).data, c.isDigit = true)
      ∧ ¬ freshDigitId draws existing h ∈ existing
      ∧ (∀ draws' : Nat → Nat,
        (∀ n, 10000 ≤ n → n ≤ 99999 → ∃ k, draws' k = n) →
        (∃ n, 10000 ≤ n ∧ n ≤ 99999 ∧ ¬ toString n ∈ existing) →
        ∃ k, ¬ toString (draws' k) ∈ existing) := by
  refine ⟨?_, ?_, Nat.find_spec h, ?_⟩
  · show (toString (draws (Nat.find h))).length = 5
    rw [toString_nat_eq_repr]
    exact repr_length_five _ (hrange _).1 (hrange _).2
  · intro c hc
    rw [show freshDigitId draws existing h
      = toString (draws (Nat.find h)) from rfl, toString_nat_eq_repr] at hc
    exact repr_all_digits _ c hc
  · rintro draws' hsurj ⟨n, h1, h2, h3⟩
    rcases hsurj n h1 h2 with ⟨k, hk⟩
    exact ⟨k, by rwa [hk]⟩

/-- C7 witness: a constant draw stream producing `12345` against the
existing id list `["11111"]`. -/
theorem C7_fresh_digit_id_witness :
    (freshDigitId (fun _ => 12345) ["11111"] ⟨0, by decide⟩).length = 5
      ∧ (∀ c ∈ (freshDigitId (fun _ => 12345) ["11111"] ⟨0, by decide⟩).data,
          c.isDigit = true)
      ∧ ¬ freshDigitId (fun _ => 12345) ["11111"] ⟨0, by decide⟩ ∈ ["11111"] := by
  have hmain := C7_fresh_digit_id (fun _ => 12345) ["11111"]
    (fun _ => ⟨by norm_num, by norm_num⟩) ⟨0, by decide⟩
  exact ⟨hmain.1, hmain.2.1, hmain.2.2.1⟩

/-! ### Claim C8 -/

/-- C8: every Place/Tag create, update and (successful) delete appends
exactly one AuditEntry whose action names the operation and whose details
hold the entity name (or, for the bulk delete-all-objects operation, the
removed count), while Object create and update append no AuditEntry at
all. -/
theorem C8_audit_emission (st : CsvState) (now : Nat) (draws : Nat → Nat)
    (hP : ∃ k, ¬ toString (draws k) ∈ (listPlaces st).map PlaceItem.id)
    (hT : ∃ k, ¬ toString (draws k) ∈ (listTags st).map TagItem.id)
    (hO : ∃ k, ¬ toString (draws k) ∈ (listObjects st).map ObjectItem.id)
    (name desc imagesRaw oid pid tid : String) (place_id : Option String)
    (newPhotos : List String) (remove_photo : List Nat)
    (tags : Option (List String)) :
    ((createPlace st draws hP name desc imagesRaw newPhotos tags now).1.audit
        = st.audit ++ [⟨now, "place",
            (createPlace st draws hP name desc imagesRaw newPhotos tags now).2,
            "created", name⟩])
      ∧ ((updatePlace st pid name desc imagesRaw newPhotos remove_photo tags now).audit
        = st.audit ++ [⟨now, "place", pid, "updated", name⟩])
      ∧ (∀ p, getPlace st pid = some p →
        ∀ st', deletePlaceOp st pid now = .ok st' →
        st'.audit = st.audit ++ [⟨now, "place", pid, "deleted", p.name⟩])
      ∧ (∀ st', deleteAllObjectsOp st pid now = .ok st' →
        st'.audit = st.audit ++ [⟨now, "place", pid, "delete_all_objects",
          toString (deleteObjectsByPlace st pid).2⟩])
      ∧ ((createTag st draws hT name now).1.audit
        = st.audit ++ [⟨now, "tag", (createTag st draws hT name now).2,
            "created", name⟩])
      ∧ ((updateTag st tid name now).audit
        = st.audit ++ [⟨now, "tag", tid, "updated", name⟩])
      ∧ (∀ t, getTag st tid = some t →
        ∀ st', deleteTagOp st tid now = .ok st' →
        st'.audit = st.audit ++ [⟨now, "tag", tid, "deleted", t.name⟩])
      ∧ ((createObject st draws hO name desc imagesRaw place_id newPhotos
          tags now).1.audit = st.audit)
      ∧ ((updateObject st oid name desc imagesRaw place_id newPhotos
          remove_photo tags now).audit = st.audit) := by
  refine ⟨rfl, rfl, ?_, ?_, rfl, ?_, ?_, ?_, ?_⟩
  · intro p hg st' h
    simp only [deletePlaceOp] at h
    rw [hg] at h
    simp only [] at h
    by_cases hc : ¬ (listObjects st).filter (fun o => o.place_id == pid) = []
    · rw [if_pos hc] at h
      exact absurd h (by simp)
    · rw [if_neg hc] at h
      injection h with h'
      rw [← h']
      rfl
  · intro st' h
    simp only [deleteAllObjectsOp] at h
    cases hg : getPlace st pid with
    | none => rw [hg] at h; exact absurd h (by simp)
    | some p =>
      rw [hg] at h
      simp only [] at h
      injection h with h'
      rw [← h']
      rfl
  · simp only [updateTag]
    cases hg : getTag st tid with
    | none => rfl
    | some t => rfl
  · intro t hg st' h
    simp only [deleteTagOp] at h
    rw [hg] at h
    simp only [] at h
    by_cases hc : ¬ (listObjects st).filter (fun o => tid ∈ o.tags) = []
      ∨ ¬ (listPlaces st).filter (fun p => tid ∈ p.tags) = []
    · rw [if_pos hc] at h
      exact absurd h (by simp)
    · rw [if_neg hc] at h
      injection h with h'
      rw [← h']
      rfl
  · simp only [createObject]
    split <;> rfl
  · simp only [updateObject]
    repeat' split
    all_goals rfl

theorem getObject_addLog (st : CsvState) (e : LogItem) (oid : String) :
    getObject (addLog st e) oid = getObject st oid := rfl

theorem getObject_saveObject_self' (st : CsvState) (item : ObjectItem)
    (oid : String) (h : item.id = oid) :
    getObject (saveObject st item) oid = some (parseObjectRow (serObject item)) := by
  subst h
  exact getObject_saveObject_self st item

theorem getObject_ite (c : Prop) [Decidable c] (a b : CsvState) (oid : String) :
    getObject (if c then a else b) oid
      = if c then getObject a oid else getObject b oid :=
  apply_ite (fun s => getObject s oid) c a b

/-- C8 witness: the audit theorem applied to the one-place state `stC5b`,
including the delete of the unreferenced place `"77777"` whose audit details
carry its name `"pl"`. -/
theorem C8_audit_emission_witness :
    ((createPlace stC5b (fun _ => 12345) ⟨0, by decide⟩ "N" "" "" [] none 3).1.audit
        = stC5b.audit ++ [⟨3, "place",
            (createPlace stC5b (fun _ => 12345) ⟨0, by decide⟩ "N" "" "" [] none 3).2,
            "created", "N"⟩])
      ∧ ((updateTag stC5b "44444" "N" 3).audit
        = stC5b.audit ++ [⟨3, "tag", "44444", "updated", "N"⟩])
      ∧ ((addAudit (deletePlaceRow stC5b "77777")
          ⟨3, "place", "77777", "deleted", "pl"⟩).audit
        = stC5b.audit ++ [⟨3, "place", "77777", "deleted", "pl"⟩])
      ∧ ((createObject stC5b (fun _ => 12345) ⟨0, by decide⟩ "N" "" "" none [] none
          3).1.audit = stC5b.audit)
      ∧ ((updateObject stC5b "11111" "N" "" "" none [] [] none 3).audit
        = stC5b.audit) := by
  have hmain := C8_audit_emission stC5b 3 (fun _ => 12345)
    ⟨0, by decide⟩ ⟨0, by decide⟩ ⟨0, by decide⟩
    "N" "" "" "11111" "77777" "44444" none [] [] none
  exact ⟨hmain.1, hmain.2.2.2.2.2.1,
    hmain.2.2.1 ⟨"77777", "pl", "", [], [], [], none⟩ (by decide)
      (addAudit (deletePlaceRow stC5b "77777")
        ⟨3, "place", "77777", "deleted", "pl"⟩) rfl,
    hmain.2.2.2.2.2.2.2.1, hmain.2.2.2.2.2.2.2.2⟩

/-! ### Claim C9 -/

/-- C9: updating an object id that is not in the table does not fail: the
missing record is treated as a fresh one (empty previous place and tag set),
and a new Object with that id is created and saved, so the update endpoint
is itself an upsert. -/
theorem C9_update_missing_creates (st : CsvState) (oid name desc imagesRaw : String)
    (place_id : Option String) (newPhotos : List String) (remove_photo : List Nat)
    (tags : Option (List String)) (now : Nat)
    (habs : getObject st oid = none) :
    ∃ it, getObject (updateObject st oid name desc imagesRaw place_id newPhotos
        remove_photo tags now) oid = some it
      ∧ it.id = oid ∧ it.name = name
      ∧ it.place_id = place_id.getD ""
      ∧ it.put_at = (if ¬ place_id.getD "" = "" then some now else none) := by
  simp only [updateObject, habs]
  simp only [getObject_ite, getObject_addLog, ite_self]
  refine ⟨_, getObject_saveObject_self st _, rfl, rfl, rfl, ?_⟩
  by_cases hpl : place_id.getD "" = ""
  · simp [hpl, parseObjectRow, serObject]
  · simp [hpl, parseObjectRow, serObject]

/-- C9 witness: updating the absent id `"11111"` on the empty state with
place `"40000"` creates the record. -/
theorem C9_update_missing_creates_witness :
    ∃ it, getObject (updateObject ⟨[], [], [], [], []⟩ "11111" "N" "" ""
        (some "40000") [] [] none 7) "11111" = some it
      ∧ it.id = "11111" ∧ it.name = "N"
      ∧ it.place_id = (some "40000").getD ""
      ∧ it.put_at = (if ¬ (some "40000").getD "" = "" then some 7 else none) :=
  C9_update_missing_creates ⟨[], [], [], [], []⟩ "11111" "N" "" "" (some "40000")
    [] [] none 7 (by decide)

/-! ### Claim C10 -/

/-- C10: manual log creation always appends exactly the submitted LogEntry;
when an Object with the submitted id exists, that Object's `place_id` and
`put_at` are overwritten with the log's place and timestamp (its other
fields kept) and it is saved; when no such Object exists, nothing but the
log table changes. -/
theorem C10_create_log (st : CsvState) (oid pid notes_s : String)
    (at_form : Option Nat) (now : Nat) :
    ((createLog st oid pid notes_s at_form now).logs
        = st.logs ++ [⟨at_form.getD now, oid, pid, notes_s⟩])
      ∧ (∀ prev, getObject st oid = some prev →
        ∃ it, getObject (createLog st oid pid notes_s at_form now) oid = some it
          ∧ it.place_id = pid ∧ it.put_at = some (at_form.getD now)
          ∧ it.name = prev.name ∧ it.description = prev.description)
      ∧ ((createLog st oid pid notes_s at_form now).places = st.places
        ∧ (createLog st oid pid notes_s at_form now).tags = st.tags
        ∧ (createLog st oid pid notes_s at_form now).audit = st.audit)
      ∧ (getObject st oid = none →
        (createLog st oid pid notes_s at_form now).objects = st.objects) := by
  refine ⟨?_, ?_, ?_, ?_⟩
  · simp only [createLog, getObject_addLog]
    cases hg : getObject st oid with
    | none => rfl
    | some prev => rfl
  · intro prev hprev
    have hpid : prev.id = oid := by
      have := List.find?_some hprev
      simpa using this
    simp only [createLog, getObject_addLog, hprev]
    exact ⟨_, getObject_saveObject_self' _ _ _ hpid, rfl, rfl, rfl, rfl⟩
  · simp only [createLog, getObject_addLog]
    cases hg : getObject st oid with
    | none => exact ⟨rfl, rfl, rfl⟩
    | some prev => exact ⟨rfl, rfl, rfl⟩
  · intro habs
    simp only [createLog, getObject_addLog, habs]
    rfl

/-- C10 witness: a manual log for existing object `"11111"` (state `csvC1`)
moves it to place `"88888"` at time 42 and appends exactly that log. -/
theorem C10_create_log_witness :
    ((createLog csvC1 "11111" "88888" "manual" (some 42) 7).logs
        = csvC1.logs ++ [⟨42, "11111", "88888", "manual"⟩])
      ∧ (∃ it, getObject (createLog csvC1 "11111" "88888" "manual" (some 42) 7)
          "11111" = some it
        ∧ it.place_id = "88888" ∧ it.put_at = some 42
        ∧ it.name = "obj" ∧ it.description = "") := by
  have hmain := C10_create_log csvC1 "11111" "88888" "manual" (some 42) 7
  exact ⟨hmain.1, hmain.2.1 ⟨"11111", "obj", "", [], [], [], "40000", some 5⟩
    (by decide)⟩

/-- C4 witness: the bulk delete evaluated on the two-places-of-three state
`ascRowsEx` wrapped in a CSV state. -/
theorem C4_delete_objects_by_place_witness :
    ((deleteObjectsByPlace ⟨ascRowsEx, [], [], [], []⟩ "p").1.objects
        = ascRowsEx.filter (fun r => ¬ r.place_id = "p"))
      ∧ ((deleteObjectsByPlace ⟨ascRowsEx, [], [], [], []⟩ "p").2
        = ascRowsEx.countP (fun r => r.place_id == "p")) := by
  have hmain := C4_delete_objects_by_place ⟨ascRowsEx, [], [], [], []⟩ "p"
  exact ⟨hmain.1, hmain.2.2.1⟩
